import Mathlib

/-!
Verification of the PostFlyer track-recording client.

This file gives a shallow embedding of the track-recorder and AppSync-service
logic of the PostFlyer repository and proves the specified properties about it.
Numbers computed by the JavaScript source are modelled as rationals; epoch
timestamps in milliseconds are modelled as naturals; fallible operations return
`Except` or `Option` values.  The floating-point haversine routine
`getDistanceMeters` is abstracted as a parameter `dist`, since transcendental
float arithmetic has no exact executable counterpart; every theorem that needs
a property of the distance (such as nonnegativity) states it as a hypothesis.
-/

namespace PostFlyer

/-- Movement classification of the recorder, `slow` or `fast`
(from useTrackRecorder.ts). -/
inductive Movement where
  | slow
  | fast
deriving DecidableEq, Repr

/-- A latitude/longitude pair in degrees, as carried by
GeolocationCoordinates. -/
structure GeoCoords where
  latitude : ℚ
  longitude : ℚ
deriving DecidableEq, Repr

/-- A raw geolocation sample (GeolocationPosition): an epoch-millisecond
timestamp, coordinates, the reported accuracy, and the device-reported speed.
`speed = none` models a reported speed that is absent or not finite
(null, undefined, NaN or an infinity); a negative finite reported speed is
`some v` with `v < 0`. -/
structure RawSample where
  timestamp : ℕ
  coords : GeoCoords
  accuracy : Option ℚ
  speed : Option ℚ
deriving DecidableEq, Repr

/-- The session data the recorder reads: its identifier and nickname. -/
structure Session where
  sessionId : String
  nickname : String
deriving DecidableEq, Repr

/-- A retained track point as built by handlePosition in useTrackRecorder.ts.
The freshly generated uuid is modelled by a counter value `pointId`; the
ISO-8601 string `ts` is modelled by the epoch-millisecond value it encodes. -/
structure TrackPoint where
  trackId : String
  pointId : ℕ
  ts : ℕ
  lat : ℚ
  lng : ℚ
  accuracy : Option ℚ
  nickname : String
deriving DecidableEq, Repr

/-- Threshold at which the recorder enters the fast state (m/s),
SPEED_FAST_THRESHOLD_MPS in useTrackRecorder.ts. -/
def SPEED_FAST_THRESHOLD_MPS : ℚ := 5

/-- Threshold at which the recorder returns to the slow state (m/s),
SPEED_SLOW_THRESHOLD_MPS in useTrackRecorder.ts. -/
def SPEED_SLOW_THRESHOLD_MPS : ℚ := 3

/-- applySpeedMeasurement from useTrackRecorder.ts (lines 121-136): a null
speed classifies as slow, a speed at or above the fast threshold yields fast,
a speed at or below the slow threshold yields slow, and anything in between
preserves the previous state. -/
def applySpeedMeasurement (speed : Option ℚ) (previous : Movement) : Movement :=
  match speed with
  | none => .slow
  | some v =>
    if SPEED_FAST_THRESHOLD_MPS ≤ v then .fast
    else if v ≤ SPEED_SLOW_THRESHOLD_MPS then .slow
    else previous

/-- The instantaneous-speed computation of handlePosition
(useTrackRecorder.ts lines 161-193): prefer the device-reported speed when it
is present, finite and non-negative; otherwise, when a previous raw sample
exists and the elapsed time is positive, divide the distance between the two
samples by the elapsed seconds, provided that distance is finite and
non-negative; otherwise the speed is null.  `dist` abstracts the
floating-point haversine getDistanceMeters. -/
def computeSpeed (dist : GeoCoords → GeoCoords → ℚ)
    (previous : Option RawSample) (position : RawSample) : Option ℚ :=
  let reported : Option ℚ :=
    match position.speed with
    | some v => if 0 ≤ v then some v else none
    | none => none
  match reported with
  | some v => some v
  | none =>
    match previous with
    | none => none
    | some prev =>
      let deltaMs : ℤ := (position.timestamp : ℤ) - (prev.timestamp : ℤ)
      if 0 < deltaMs then
        let d := dist prev.coords position.coords
        if 0 ≤ d then some (d * 1000 / (deltaMs : ℚ)) else none
      else none

/-- The in-memory state of the recorder hook in useTrackRecorder.ts:
the displayed point list, the pending-send buffer, the previous raw sample,
the movement state, the last computed speed, and the counter that models the
uuid supply for fresh point identifiers. -/
structure RecorderState where
  points : List TrackPoint
  buffer : List TrackPoint
  lastPosition : Option RawSample
  movementState : Movement
  speedMps : Option ℚ
  nextPointId : ℕ
deriving DecidableEq, Repr

/-- The state of the recorder after resetRecorder: empty lists, slow movement,
no previous sample, no speed. -/
def initialRecorderState : RecorderState :=
  { points := []
    buffer := []
    lastPosition := none
    movementState := .slow
    speedMps := none
    nextPointId := 0 }

/-- The timestamp a retained point receives, from
`new Date(position.timestamp || Date.now())` in handlePosition.  The
JavaScript or-operator treats the number 0 as falsy, so a zero sample
timestamp is replaced by the wall-clock value `now`. -/
def sampleTs (now : ℕ) (position : RawSample) : ℕ :=
  if position.timestamp = 0 then now else position.timestamp

/-- One step of handlePosition from useTrackRecorder.ts (lines 138-196):
when no session is active the sample is dropped; otherwise the sample is
retained as a TrackPoint appended to both the displayed list and the pending
buffer, the sample is remembered as the previous position, and the computed
speed updates the movement state (this source variant records every sample —
it has no stagnation suppression). -/
def handlePosition (dist : GeoCoords → GeoCoords → ℚ) (session : Option Session)
    (now : ℕ) (st : RecorderState) (position : RawSample) : RecorderState :=
  match session with
  | none => st
  | some sess =>
    let ts := sampleTs now position
    let nextPoint : TrackPoint :=
      { trackId := sess.sessionId
        pointId := st.nextPointId
        ts := ts
        lat := position.coords.latitude
        lng := position.coords.longitude
        accuracy := position.accuracy
        nickname := sess.nickname }
    let speed := computeSpeed dist st.lastPosition position
    { points := st.points ++ [nextPoint]
      buffer := st.buffer ++ [nextPoint]
      lastPosition := some position
      movementState := applySpeedMeasurement speed st.movementState
      speedMps := speed
      nextPointId := st.nextPointId + 1 }

/-- Processing a whole stream of raw samples with handlePosition, in arrival
order. -/
def processSamples (dist : GeoCoords → GeoCoords → ℚ) (session : Option Session)
    (now : ℕ) (st : RecorderState) : List RawSample → RecorderState
  | [] => st
  | s :: rest => processSamples dist session now (handlePosition dist session now st s) rest

/-- Minimum distance threshold of the throttled recorder variant (meters).
The repository README names this constant SLOW_MOVEMENT_MIN_DISTANCE_M. -/
def SLOW_MOVEMENT_MIN_DISTANCE_M : ℚ := 25

/-- Minimum interval threshold of the throttled recorder variant
(milliseconds).  The repository README names this constant
SLOW_MOVEMENT_MIN_INTERVAL_MS. -/
def SLOW_MOVEMENT_MIN_INTERVAL_MS : ℕ := 180000

/-- Modelled from the spec: the retention state of the throttled recorder
variant.  The repository README documents this variant through its
SLOW_MOVEMENT_MIN_DISTANCE_M and SLOW_MOVEMENT_MIN_INTERVAL_MS constants, but
its source is not included under src/ (useTrackRecorder.ts there ships the
always-record variant), so the retention logic is modelled from the spec
wording.  `lastRecorded` is the coordinates and epoch-millisecond timestamp of
the last retained point, when one exists. -/
structure ThrottledState where
  movementState : Movement
  lastRecorded : Option (GeoCoords × ℕ)
deriving DecidableEq, Repr

/-- Modelled from the spec: the retention decision of the throttled recorder
variant — a point is recorded unless ALL of the following hold: the speed is
slow or unknown, a previously recorded point exists, the distance from that
last recorded point is below 25 meters, and the elapsed time since that last
recorded point is below 180000 ms.  The speed classification applies the
hysteresis rule to the computed speed; `dist` abstracts the floating-point
haversine getDistanceMeters. -/
def shouldRecord (dist : GeoCoords → GeoCoords → ℚ) (st : ThrottledState)
    (speed : Option ℚ) (sample : RawSample) : Bool :=
  match st.lastRecorded with
  | none => true
  | some (lastCoords, lastTs) =>
    decide (¬((speed = none ∨ applySpeedMeasurement speed st.movementState = .slow) ∧
      dist lastCoords sample.coords < SLOW_MOVEMENT_MIN_DISTANCE_M ∧
      sample.timestamp - lastTs < SLOW_MOVEMENT_MIN_INTERVAL_MS))

/-- Modelled from the spec: one sample-handling step of the throttled recorder
variant while a session is active.  It computes the instantaneous speed the
same way as the src/ variant, applies the hysteresis classification, and
retains the sample exactly when the retention decision allows it, updating the
last-recorded point on retention.  Returns the new state together with whether
a point was recorded for this sample. -/
def handlePositionThrottled (dist : GeoCoords → GeoCoords → ℚ)
    (previous : Option RawSample) (st : ThrottledState) (sample : RawSample) :
    ThrottledState × Bool :=
  let speed := computeSpeed dist previous sample
  let recorded := shouldRecord dist st speed sample
  ({ movementState := applySpeedMeasurement speed st.movementState
     lastRecorded :=
       if recorded then some (sample.coords, sample.timestamp) else st.lastRecorded },
   recorded)

/-- The distinct error raised by putTrackPoints in src/frontend/src/amplify/
client.ts (class TrackPointBatchError, lines 178-193): it carries both the
already-persisted points and the not-yet-sent points from the failed one
onward. -/
structure TrackPointBatchError where
  completed : List TrackPoint
  pending : List TrackPoint
deriving DecidableEq, Repr

/-- The loop body of putTrackPoints from client.ts (lines 250-280): points are
sent one by one in order; `net p = true` models a successful createTrackPoint
call for `p` (whose persisted echo is the point itself), `net p = false` a
rejected one.  On the first failure the loop stops and raises a
TrackPointBatchError carrying the saved points and the items from the failed
index onward. -/
def putTrackPointsGo (net : TrackPoint → Bool) (saved : List TrackPoint) :
    List TrackPoint → Except TrackPointBatchError (List TrackPoint)
  | [] => .ok saved
  | item :: rest =>
    if net item then putTrackPointsGo net (saved ++ [item]) rest
    else .error { completed := saved, pending := item :: rest }

/-- putTrackPoints from client.ts (lines 250-280): send every item in order,
starting from an empty saved list (an empty input returns the empty list
without any network call, exactly as the loop does). -/
def putTrackPoints (net : TrackPoint → Bool) (items : List TrackPoint) :
    Except TrackPointBatchError (List TrackPoint) :=
  putTrackPointsGo net [] items

/-- Modelled from the spec: completion of one flush in the recorder variant
that consumes TrackPointBatchError (the consumer of that error class is not
included under src/; the flushNow in useTrackRecorder.ts there predates it).
The pending buffer is swapped out atomically at the start, so `arrivals` —
the points appended to the buffer while the network calls were awaited — are
all that remains in the buffer during the flush.  On success the swapped
points are gone; on a batch failure the still-pending points are prepended
back onto the buffer.  Returns the buffer after the flush and the points the
flush delivered (successfully persisted). -/
def flushStep (net : TrackPoint → Bool) (buffer arrivals : List TrackPoint) :
    List TrackPoint × List TrackPoint :=
  match putTrackPoints net buffer with
  | .ok saved => (arrivals, saved)
  | .error e => (e.pending ++ arrivals, e.completed)

/-- The state read by the synchronous guard section of flushNow in
useTrackRecorder.ts (lines 94-110): whether a session is active, whether the
browser reports being online, whether a flush is already in flight, and the
pending buffer. -/
structure FlushGuardState where
  sessionActive : Bool
  online : Bool
  isFlushing : Bool
  buffer : List TrackPoint
deriving DecidableEq, Repr

/-- The synchronous guard section of flushNow (useTrackRecorder.ts lines
94-110), up to the putTrackPoints call: it returns without any network call
when no session is active, when a flush is already in flight, when the buffer
is empty, or when offline; otherwise it marks a flush as in flight and submits
the current buffer.  The second component is the batch handed to
putTrackPoints, `none` when no network call is issued. -/
def flushNowGuard (s : FlushGuardState) : FlushGuardState × Option (List TrackPoint) :=
  if !s.sessionActive || s.isFlushing then (s, none)
  else if s.buffer.isEmpty then (s, none)
  else if !s.online then (s, none)
  else ({ s with isFlushing := true }, some s.buffer)

/-- Page-size cap of the paginated time-range query, MAX_PAGE_SIZE in
client.ts. -/
def MAX_PAGE_SIZE : ℕ := 1000

/-- The pagination loop of listTrackPointsByTime from client.ts (lines
282-353).  The backend is modelled as an honest paged source: `rest` is the
not-yet-returned portion of the points matching the time range, a request
with page limit `p` returns the first `p` of them, and the continuation token
is present exactly when items remain — so the token is modelled by the
remaining list itself.  `remaining = none` models an absent or non-finite
limit.  Each iteration breaks, as the source does, when the requested count
is reached, when no continuation token is returned, or when a page comes back
empty. -/
def listTrackPointsByTime (remaining : Option ℕ) (rest : List TrackPoint) :
    List TrackPoint :=
  if remaining = some 0 then []
  else
    let pageLimit :=
      match remaining with
      | some r => min (max r 1) MAX_PAGE_SIZE
      | none => MAX_PAGE_SIZE
    let page := rest.take pageLimit
    let rest2 := rest.drop pageLimit
    let remaining2 := remaining.map (fun r => r - page.length)
    if remaining2 = some 0 then page
    else if rest2.isEmpty then page
    else if page.isEmpty then page
    else page ++ listTrackPointsByTime remaining2 rest2
termination_by rest.length
decreasing_by
  rename_i _hr2 hpage
  have hpage2 : rest.take pageLimit ≠ [] := by
    intro h
    exact hpage (by unfold page; simp [h])
  have hrest : rest ≠ [] := by
    intro h
    exact hpage2 (by simp [h])
  have hp0 : pageLimit ≠ 0 := by
    intro h
    exact hpage2 (by simp [h])
  have hlen : 0 < rest.length := List.length_pos.mpr hrest
  simp only [List.length_drop]
  omega

/-- loadHistory from App.tsx (src/unnamed/part_000 lines 351-383 and
1116-1154): fetch the points of the requested range through the paginated
time-range query and sort them ascending by timestamp (the comparator
`(a, b) => ts(a) - ts(b)`, modelled by a stable merge sort on the
epoch-millisecond value). -/
def loadHistory (remaining : Option ℕ) (rest : List TrackPoint) : List TrackPoint :=
  (listTrackPointsByTime remaining rest).mergeSort (fun a b => a.ts ≤ b.ts)

/-- The browser geolocation registry as the recorder sees it: whether
geolocation is supported, the identifiers of the currently registered watches,
and the next identifier watchPosition would hand out. -/
structure GeoEnv where
  geoSupported : Bool
  watches : List ℕ
  nextWatchId : ℕ
deriving DecidableEq, Repr

/-- The state acted on by start and stopWatch in useTrackRecorder.ts: the
session, the stored watch identifier (watchIdRef), the isTracking flag and
the geolocation registry. -/
structure WatchState where
  session : Option Session
  watchId : Option ℕ
  isTracking : Bool
  env : GeoEnv
deriving DecidableEq, Repr

/-- The two error reports start can issue (useTrackRecorder.ts lines 217-226):
no session, or geolocation unsupported on this device. -/
inductive StartError where
  | noSession
  | unsupported
deriving DecidableEq, Repr

/-- start from useTrackRecorder.ts (lines 217-243): with no session it reports
an error and registers nothing; without geolocation support it reports an
error and registers nothing; when a watch identifier is already stored it
returns silently without touching any state; otherwise it registers a fresh
geolocation watch, stores its identifier and sets isTracking. -/
def start (s : WatchState) : WatchState × Option StartError :=
  match s.session with
  | none => (s, some .noSession)
  | some _ =>
    if !s.env.geoSupported then (s, some .unsupported)
    else
      match s.watchId with
      | some _ => (s, none)
      | none =>
        let id := s.env.nextWatchId
        ({ s with
            watchId := some id
            isTracking := true
            env := { s.env with
                      watches := s.env.watches ++ [id]
                      nextWatchId := id + 1 } },
         none)

/-- stopWatch from useTrackRecorder.ts (lines 76-85): when a watch identifier
is stored, clear that watch from the registry and forget the identifier; in
every case isTracking is reset. -/
def stopWatch (s : WatchState) : WatchState :=
  let env2 :=
    match s.watchId with
    | some id => { s.env with watches := s.env.watches.filter (fun w => w ≠ id) }
    | none => s.env
  { s with watchId := none, isTracking := false, env := env2 }

/-- Operations that touch the watch registry: start and stop (stop runs
stopWatch and then a flush, which does not touch the registry). -/
inductive RecorderOp where
  | opStart
  | opStop
deriving DecidableEq, Repr

/-- Apply one registry-touching operation. -/
def applyOp (s : WatchState) : RecorderOp → WatchState
  | .opStart => (start s).1
  | .opStop => stopWatch s

/-- Run a sequence of registry-touching operations. -/
def runOps (s : WatchState) : List RecorderOp → WatchState
  | [] => s
  | op :: rest => runOps (applyOp s op) rest

/-- The state of the recorder on construction: no watch registered, not
tracking, an empty registry. -/
def initialWatchState (session : Option Session) (supported : Bool) : WatchState :=
  { session := session
    watchId := none
    isTracking := false
    env := { geoSupported := supported, watches := [], nextWatchId := 0 } }

/-- The single-watch invariant: the stored watch identifier and the registry
agree — no identifier means no registered watch, a stored identifier means
exactly that one watch is registered. -/
def WatchInv (s : WatchState) : Prop :=
  (s.watchId = none → s.env.watches = []) ∧
  (∀ id, s.watchId = some id → s.env.watches = [id])

/-- C5: Movement-state hysteresis — for every speed measurement applied to a
current state, a null speed classifies as slow; a speed of at least 5 m/s
yields fast; a speed of at most 3 m/s yields slow; a speed strictly between
3 and 5 m/s preserves the current state; and the sequence 6, 4, 2 m/s starting
from slow transitions to fast at 6, stays fast at 4, and returns to slow only
at 2. -/
theorem movement_hysteresis :
    (∀ st : Movement, applySpeedMeasurement none st = .slow) ∧
    (∀ (st : Movement) (v : ℚ), 5 ≤ v → applySpeedMeasurement (some v) st = .fast) ∧
    (∀ (st : Movement) (v : ℚ), v ≤ 3 → applySpeedMeasurement (some v) st = .slow) ∧
    (∀ (st : Movement) (v : ℚ), 3 < v → v < 5 → applySpeedMeasurement (some v) st = st) ∧
    applySpeedMeasurement (some 6) .slow = .fast ∧
    applySpeedMeasurement (some 4) (applySpeedMeasurement (some 6) .slow) = .fast ∧
    applySpeedMeasurement (some 2)
      (applySpeedMeasurement (some 4) (applySpeedMeasurement (some 6) .slow)) = .slow := by
  refine ⟨fun st => rfl, fun st v hv => ?_, fun st v hv => ?_,
    fun st v h3 h5 => ?_, ?_, ?_, ?_⟩
  · simp [applySpeedMeasurement, SPEED_FAST_THRESHOLD_MPS, hv]
  · have h5 : ¬ (SPEED_FAST_THRESHOLD_MPS ≤ v) := by
      rw [SPEED_FAST_THRESHOLD_MPS]
      linarith
    simp [applySpeedMeasurement, SPEED_SLOW_THRESHOLD_MPS, h5, hv]
  · have hf : ¬ (SPEED_FAST_THRESHOLD_MPS ≤ v) := by
      rw [SPEED_FAST_THRESHOLD_MPS]
      linarith
    have hs : ¬ (v ≤ SPEED_SLOW_THRESHOLD_MPS) := by
      rw [SPEED_SLOW_THRESHOLD_MPS]
      linarith
    simp [applySpeedMeasurement, hf, hs]
  · norm_num [applySpeedMeasurement, SPEED_FAST_THRESHOLD_MPS, SPEED_SLOW_THRESHOLD_MPS]
  · norm_num [applySpeedMeasurement, SPEED_FAST_THRESHOLD_MPS, SPEED_SLOW_THRESHOLD_MPS]
  · norm_num [applySpeedMeasurement, SPEED_FAST_THRESHOLD_MPS, SPEED_SLOW_THRESHOLD_MPS]

/-- Witness for C5 at the concrete in-between reading 4 m/s from the fast
state. -/
theorem movement_hysteresis_witness :
    applySpeedMeasurement (some 4) Movement.fast = Movement.fast :=
  movement_hysteresis.2.2.2.1 Movement.fast 4 (by norm_num) (by norm_num)

/-- C6: Instantaneous speed computation — the speed used for classification is
the device-reported speed when it is present, finite and non-negative;
otherwise, when a previous raw sample exists and the elapsed time is positive,
it is the distance between the two samples (the floating-point haversine,
abstracted as the non-negative function `dist`) divided by the elapsed
seconds; otherwise the speed is null. -/
theorem instantaneous_speed (dist : GeoCoords → GeoCoords → ℚ)
    (hd : ∀ p q, 0 ≤ dist p q) :
    (∀ (previous : Option RawSample) (position : RawSample) (v : ℚ),
        position.speed = some v → 0 ≤ v →
        computeSpeed dist previous position = some v) ∧
    (∀ (prev position : RawSample),
        (position.speed = none ∨ ∃ v, position.speed = some v ∧ v < 0) →
        prev.timestamp < position.timestamp →
        computeSpeed dist (some prev) position =
          some (dist prev.coords position.coords * 1000 /
            ((position.timestamp : ℚ) - (prev.timestamp : ℚ)))) ∧
    (∀ position : RawSample,
        (position.speed = none ∨ ∃ v, position.speed = some v ∧ v < 0) →
        computeSpeed dist none position = none) ∧
    (∀ (prev position : RawSample),
        (position.speed = none ∨ ∃ v, position.speed = some v ∧ v < 0) →
        position.timestamp ≤ prev.timestamp →
        computeSpeed dist (some prev) position = none) := by
  have hrep : ∀ (position : RawSample),
      (position.speed = none ∨ ∃ v, position.speed = some v ∧ v < 0) →
      (match position.speed with
        | some v => if 0 ≤ v then some v else none
        | none => none) = (none : Option ℚ) := by
    intro position h
    rcases h with h | ⟨v, hv, hneg⟩
    · simp [h]
    · simp [hv, not_le.mpr hneg]
  refine ⟨fun previous position v hv h0 => ?_, fun prev position hs ht => ?_,
    fun position hs => ?_, fun prev position hs ht => ?_⟩
  · simp [computeSpeed, hv, h0]
  · have hpos : (0 : ℤ) < (position.timestamp : ℤ) - (prev.timestamp : ℤ) := by
      omega
    simp only [computeSpeed, hrep position hs, hpos, if_pos, hd prev.coords position.coords]
    push_cast
    ring_nf
  · simp only [computeSpeed, hrep position hs]
  · have hpos : ¬ ((0 : ℤ) < (position.timestamp : ℤ) - (prev.timestamp : ℤ)) := by
      omega
    simp only [computeSpeed, hrep position hs]
    rw [if_neg hpos]

/-- Witness for C6 at a concrete sample with a valid reported speed. -/
theorem instantaneous_speed_witness :
    computeSpeed (fun _ _ => 0) none
      { timestamp := 1000, coords := { latitude := 0, longitude := 0 },
        accuracy := none, speed := some 7 } = some 7 :=
  (instantaneous_speed (fun _ _ => 0) (fun _ _ => le_refl 0)).1 none
    { timestamp := 1000, coords := { latitude := 0, longitude := 0 },
      accuracy := none, speed := some 7 } 7 rfl (by norm_num)

/-- The retention decision is true exactly when the stagnation-suppression
conjunction fails. -/
theorem shouldRecord_eq_true_iff (dist : GeoCoords → GeoCoords → ℚ)
    (st : ThrottledState) (speed : Option ℚ) (sample : RawSample) :
    shouldRecord dist st speed sample = true ↔
      ¬((speed = none ∨ applySpeedMeasurement speed st.movementState = .slow) ∧
        ∃ lastCoords lastTs, st.lastRecorded = some (lastCoords, lastTs) ∧
          dist lastCoords sample.coords < SLOW_MOVEMENT_MIN_DISTANCE_M ∧
          sample.timestamp - lastTs < SLOW_MOVEMENT_MIN_INTERVAL_MS) := by
  unfold shouldRecord
  cases h : st.lastRecorded with
  | none => simp
  | some p =>
    obtain ⟨lc, lt⟩ := p
    simp only [decide_not, Bool.not_eq_true', decide_eq_false_iff_not, h,
      Option.some.injEq, Prod.mk.injEq]
    constructor
    · rintro hn ⟨hslow, lc2, lt2, ⟨rfl, rfl⟩, hdist, htime⟩
      exact hn ⟨hslow, hdist, htime⟩
    · rintro hn ⟨hslow, hdist, htime⟩
      exact hn ⟨hslow, lc, lt, ⟨rfl, rfl⟩, hdist, htime⟩

/-- C1: Stagnation suppression in the (spec-modelled) throttled
sample-handling step — a point is recorded unless ALL of the following hold:
the speed is slow or unknown, a previously recorded point exists, the distance
from that last recorded point is below 25 meters, and the elapsed time since
that last recorded point is below 180000 ms; in particular, a sample within
25 m and under 180000 ms of the last retained point with slow or unknown speed
does not produce a retained point, while a sample at least 180000 ms after the
last retained point always does. -/
theorem stagnation_suppression (dist : GeoCoords → GeoCoords → ℚ)
    (previous : Option RawSample) (st : ThrottledState) (sample : RawSample) :
    ((handlePositionThrottled dist previous st sample).2 = true ↔
      ¬((computeSpeed dist previous sample = none ∨
          applySpeedMeasurement (computeSpeed dist previous sample) st.movementState = .slow) ∧
        ∃ lastCoords lastTs, st.lastRecorded = some (lastCoords, lastTs) ∧
          dist lastCoords sample.coords < SLOW_MOVEMENT_MIN_DISTANCE_M ∧
          sample.timestamp - lastTs < SLOW_MOVEMENT_MIN_INTERVAL_MS)) ∧
    (∀ lastCoords lastTs,
        st.lastRecorded = some (lastCoords, lastTs) →
        (computeSpeed dist previous sample = none ∨
          applySpeedMeasurement (computeSpeed dist previous sample) st.movementState = .slow) →
        dist lastCoords sample.coords < SLOW_MOVEMENT_MIN_DISTANCE_M →
        sample.timestamp - lastTs < SLOW_MOVEMENT_MIN_INTERVAL_MS →
        (handlePositionThrottled dist previous st sample).2 = false) ∧
    (∀ lastCoords lastTs,
        st.lastRecorded = some (lastCoords, lastTs) →
        SLOW_MOVEMENT_MIN_INTERVAL_MS ≤ sample.timestamp - lastTs →
        (handlePositionThrottled dist previous st sample).2 = true) := by
  have h2 : (handlePositionThrottled dist previous st sample).2 =
      shouldRecord dist st (computeSpeed dist previous sample) sample := rfl
  refine ⟨?_, ?_, ?_⟩
  · rw [h2]
    exact shouldRecord_eq_true_iff dist st (computeSpeed dist previous sample) sample
  · intro lastCoords lastTs hlast hslow hdist htime
    rw [h2, Bool.eq_false_iff]
    intro htrue
    exact (shouldRecord_eq_true_iff dist st (computeSpeed dist previous sample) sample).mp
      htrue ⟨hslow, lastCoords, lastTs, hlast, hdist, htime⟩
  · intro lastCoords lastTs hlast htime
    rw [h2, shouldRecord_eq_true_iff]
    rintro ⟨-, lc2, lt2, hlast2, -, htime2⟩
    rw [hlast] at hlast2
    obtain ⟨-, rfl⟩ : lc2 = lastCoords ∧ lt2 = lastTs := by
      exact ⟨congrArg Prod.fst (Option.some.inj hlast2).symm,
        congrArg Prod.snd (Option.some.inj hlast2).symm⟩
    omega

/-- Witness for C1: a stationary sample 100 ms after the last retained point,
with unknown speed, is suppressed. -/
theorem stagnation_suppression_witness :
    (handlePositionThrottled (fun _ _ => 0) none
      { movementState := .slow,
        lastRecorded := some ({ latitude := 0, longitude := 0 }, 0) }
      { timestamp := 100, coords := { latitude := 0, longitude := 0 },
        accuracy := none, speed := none }).2 = false :=
  (stagnation_suppression (fun _ _ => 0) none
    { movementState := .slow,
      lastRecorded := some ({ latitude := 0, longitude := 0 }, 0) }
    { timestamp := 100, coords := { latitude := 0, longitude := 0 },
      accuracy := none, speed := none }).2.1
    { latitude := 0, longitude := 0 } 0 rfl (Or.inl rfl)
    (by norm_num [SLOW_MOVEMENT_MIN_DISTANCE_M])
    (by norm_num [SLOW_MOVEMENT_MIN_INTERVAL_MS])

/-- The timestamps of the points retained by the src/ recorder are the sample
timestamps as rewritten by the falsy-zero fallback. -/
theorem processSamples_points_ts (dist : GeoCoords → GeoCoords → ℚ) (sess : Session)
    (now : ℕ) (st : RecorderState) (samples : List RawSample) :
    (processSamples dist (some sess) now st samples).points.map TrackPoint.ts =
      st.points.map TrackPoint.ts ++ samples.map (sampleTs now) := by
  induction samples generalizing st with
  | nil => simp [processSamples]
  | cons s rest ih =>
    rw [processSamples, ih]
    simp [handlePosition]

/-- C8 as stated is false on the code: handlePosition computes the point
timestamp as `position.timestamp || Date.now()`, and the JavaScript
or-operator treats the number 0 as falsy, so for the strictly increasing
sample timestamps 0, 1 processed at wall-clock 2 the retained timestamps are
2, 1 — neither strictly increasing nor a subsequence of the input. -/
theorem timestamp_monotonicity_counterexample :
    List.Chain' (· < ·)
      (List.map RawSample.timestamp
        ([{ timestamp := 0, coords := { latitude := 0, longitude := 0 },
            accuracy := none, speed := some 1 },
          { timestamp := 1, coords := { latitude := 0, longitude := 0 },
            accuracy := none, speed := some 1 }] : List RawSample)) ∧
    ¬ List.Sublist
        ((processSamples (fun _ _ => 0) (some { sessionId := "t", nickname := "n" }) 2
            initialRecorderState
            [{ timestamp := 0, coords := { latitude := 0, longitude := 0 },
               accuracy := none, speed := some 1 },
             { timestamp := 1, coords := { latitude := 0, longitude := 0 },
               accuracy := none, speed := some 1 }]).points.map TrackPoint.ts)
        (List.map RawSample.timestamp
          ([{ timestamp := 0, coords := { latitude := 0, longitude := 0 },
              accuracy := none, speed := some 1 },
            { timestamp := 1, coords := { latitude := 0, longitude := 0 },
              accuracy := none, speed := some 1 }] : List RawSample)) ∧
    ¬ List.Chain' (· < ·)
        ((processSamples (fun _ _ => 0) (some { sessionId := "t", nickname := "n" }) 2
            initialRecorderState
            [{ timestamp := 0, coords := { latitude := 0, longitude := 0 },
               accuracy := none, speed := some 1 },
             { timestamp := 1, coords := { latitude := 0, longitude := 0 },
               accuracy := none, speed := some 1 }]).points.map TrackPoint.ts) := by
  rw [processSamples_points_ts]
  have hts : (initialRecorderState.points.map TrackPoint.ts ++
      List.map (sampleTs 2)
        ([{ timestamp := 0, coords := { latitude := 0, longitude := 0 },
            accuracy := none, speed := some 1 },
          { timestamp := 1, coords := { latitude := 0, longitude := 0 },
            accuracy := none, speed := some 1 }] : List RawSample)) = [2, 1] := by
    norm_num [initialRecorderState, sampleTs]
  rw [hts]
  refine ⟨?_, ?_, ?_⟩
  · simp [List.chain'_cons]
  · intro hsub
    have hlen := hsub.eq_of_length (by simp)
    simp at hlen
  · simp [List.chain'_cons]

/-- C8 amended: for every sequence of raw samples with strictly increasing
nonzero timestamps processed while a session is active, the retained-point
timestamps form a strictly increasing subsequence of the input timestamps
(with the always-record src/ variant they are exactly the input timestamps). -/
theorem timestamp_monotonicity (dist : GeoCoords → GeoCoords → ℚ) (sess : Session)
    (now : ℕ) (samples : List RawSample)
    (hnz : ∀ s ∈ samples, s.timestamp ≠ 0)
    (hinc : List.Chain' (· < ·) (samples.map RawSample.timestamp)) :
    List.Sublist
      ((processSamples dist (some sess) now initialRecorderState samples).points.map
        TrackPoint.ts)
      (samples.map RawSample.timestamp) ∧
    List.Chain' (· < ·)
      ((processSamples dist (some sess) now initialRecorderState samples).points.map
        TrackPoint.ts) := by
  have hts : (processSamples dist (some sess) now initialRecorderState samples).points.map
      TrackPoint.ts = samples.map RawSample.timestamp := by
    rw [processSamples_points_ts]
    simp only [initialRecorderState, List.map_nil, List.nil_append]
    apply List.map_congr_left
    intro s hs
    simp [sampleTs, hnz s hs]
  rw [hts]
  exact ⟨List.Sublist.refl _, hinc⟩

/-- Witness for C8 (amended) on two concrete samples with timestamps
5 and 10. -/
theorem timestamp_monotonicity_witness :
    List.Sublist
      ((processSamples (fun _ _ => 0) (some { sessionId := "t", nickname := "n" }) 0
          initialRecorderState
          [{ timestamp := 5, coords := { latitude := 0, longitude := 0 },
             accuracy := none, speed := some 1 },
           { timestamp := 10, coords := { latitude := 0, longitude := 0 },
             accuracy := none, speed := some 1 }]).points.map TrackPoint.ts)
      (List.map RawSample.timestamp
        ([{ timestamp := 5, coords := { latitude := 0, longitude := 0 },
            accuracy := none, speed := some 1 },
          { timestamp := 10, coords := { latitude := 0, longitude := 0 },
            accuracy := none, speed := some 1 }] : List RawSample)) ∧
    List.Chain' (· < ·)
      ((processSamples (fun _ _ => 0) (some { sessionId := "t", nickname := "n" }) 0
          initialRecorderState
          [{ timestamp := 5, coords := { latitude := 0, longitude := 0 },
             accuracy := none, speed := some 1 },
           { timestamp := 10, coords := { latitude := 0, longitude := 0 },
             accuracy := none, speed := some 1 }]).points.map TrackPoint.ts) :=
  timestamp_monotonicity (fun _ _ => 0) { sessionId := "t", nickname := "n" } 0
    [{ timestamp := 5, coords := { latitude := 0, longitude := 0 },
       accuracy := none, speed := some 1 },
     { timestamp := 10, coords := { latitude := 0, longitude := 0 },
       accuracy := none, speed := some 1 }] (by simp) (by simp [List.chain'_cons])

/-- When the send loop of putTrackPoints succeeds it has sent every item, in
order, after the already-saved ones. -/
theorem putTrackPointsGo_ok (net : TrackPoint → Bool) (saved items r : List TrackPoint)
    (h : putTrackPointsGo net saved items = .ok r) :
    r = saved ++ items ∧ ∀ p ∈ items, net p = true := by
  induction items generalizing saved with
  | nil =>
    simp only [putTrackPointsGo, Except.ok.injEq] at h
    simp [h]
  | cons item rest ih =>
    simp only [putTrackPointsGo] at h
    cases hn : net item with
    | true =>
      rw [hn] at h
      simp only [if_true] at h
      obtain ⟨hr, hall⟩ := ih _ h
      refine ⟨by simp [hr], ?_⟩
      intro p hp
      rcases List.mem_cons.mp hp with rfl | hp2
      · exact hn
      · exact hall p hp2
    | false =>
      rw [hn] at h
      simp at h

/-- When the send loop of putTrackPoints fails, the input splits at the first
rejected item: everything before it was sent successfully and is appended to
the saved list carried by the error, and the pending list is exactly the
rejected item and everything after it. -/
theorem putTrackPointsGo_error (net : TrackPoint → Bool) (saved items : List TrackPoint)
    (e : TrackPointBatchError) (h : putTrackPointsGo net saved items = .error e) :
    ∃ pre x post, items = pre ++ x :: post ∧
      (∀ p ∈ pre, net p = true) ∧ net x = false ∧
      e.completed = saved ++ pre ∧ e.pending = x :: post := by
  induction items generalizing saved with
  | nil => simp [putTrackPointsGo] at h
  | cons item rest ih =>
    simp only [putTrackPointsGo] at h
    cases hn : net item with
    | true =>
      rw [hn] at h
      simp only [if_true] at h
      obtain ⟨pre, x, post, hitems, hpre, hx, hcomp, hpend⟩ := ih _ h
      refine ⟨item :: pre, x, post, by simp [hitems], ?_, hx, by simp [hcomp], hpend⟩
      intro p hp
      rcases List.mem_cons.mp hp with rfl | hp2
      · exact hn
      · exact hpre p hp2
    | false =>
      rw [hn] at h
      simp only [Bool.false_eq_true, if_false, Except.error.injEq] at h
      exact ⟨[], item, rest, rfl, by simp, hn, by simp [← h], by simp [← h]⟩

/-- C9: Partial-batch error payload — when a batch point-creation fails at
some call, the raised error carries both the completed subset (exactly the
points whose create-point call succeeded, in order, before the failed one)
and the still-pending subset (the failed point and everything after it). -/
theorem batch_error_payload (net : TrackPoint → Bool) (items : List TrackPoint)
    (e : TrackPointBatchError) (h : putTrackPoints net items = .error e) :
    ∃ pre x post, items = pre ++ x :: post ∧
      (∀ p ∈ pre, net p = true) ∧ net x = false ∧
      e.completed = pre ∧ e.pending = x :: post := by
  obtain ⟨pre, x, post, hitems, hpre, hx, hcomp, hpend⟩ :=
    putTrackPointsGo_error net [] items e (by simpa [putTrackPoints] using h)
  exact ⟨pre, x, post, hitems, hpre, hx, by simpa using hcomp, hpend⟩

/-- Witness for C9: with the network rejecting every point but the one with
identifier 1, the batch of points 1, 2, 3 raises an error carrying completed
subset made of point 1 and pending subset of points 2 and 3. -/
theorem batch_error_payload_witness :
    ∃ pre x post,
      ([{ trackId := "t", pointId := 1, ts := 1, lat := 0, lng := 0,
          accuracy := none, nickname := "n" },
        { trackId := "t", pointId := 2, ts := 2, lat := 0, lng := 0,
          accuracy := none, nickname := "n" },
        { trackId := "t", pointId := 3, ts := 3, lat := 0, lng := 0,
          accuracy := none, nickname := "n" }] : List TrackPoint) = pre ++ x :: post ∧
      (∀ p ∈ pre, (fun q : TrackPoint => q.pointId == 1) p = true) ∧
      (fun q : TrackPoint => q.pointId == 1) x = false ∧
      ({ completed :=
          [{ trackId := "t", pointId := 1, ts := 1, lat := 0, lng := 0,
             accuracy := none, nickname := "n" }],
         pending :=
          [{ trackId := "t", pointId := 2, ts := 2, lat := 0, lng := 0,
             accuracy := none, nickname := "n" },
           { trackId := "t", pointId := 3, ts := 3, lat := 0, lng := 0,
             accuracy := none, nickname := "n" }] } : TrackPointBatchError).completed =
        pre ∧
      ({ completed :=
          [{ trackId := "t", pointId := 1, ts := 1, lat := 0, lng := 0,
             accuracy := none, nickname := "n" }],
         pending :=
          [{ trackId := "t", pointId := 2, ts := 2, lat := 0, lng := 0,
             accuracy := none, nickname := "n" },
           { trackId := "t", pointId := 3, ts := 3, lat := 0, lng := 0,
             accuracy := none, nickname := "n" }] } : TrackPointBatchError).pending =
        x :: post :=
  batch_error_payload (fun q => q.pointId == 1) _ _ rfl

/-- C2: Flush failure-recovery ordering — for a pending buffer p1, p2, p3
where sending p2 fails, the first flush delivers only p1 and prepends the
not-yet-sent points p2, p3 back onto the pending buffer; the subsequent
successful flush delivers exactly p2 then p3 in that order, and p1 is not
among its deliveries. -/
theorem flush_failure_recovery (p1 p2 p3 : TrackPoint) (net1 net2 : TrackPoint → Bool)
    (h11 : net1 p1 = true) (h12 : net1 p2 = false)
    (h22 : net2 p2 = true) (h23 : net2 p3 = true)
    (hne2 : p1 ≠ p2) (hne3 : p1 ≠ p3) :
    flushStep net1 [p1, p2, p3] [] = ([p2, p3], [p1]) ∧
    flushStep net2 [p2, p3] [] = ([], [p2, p3]) ∧
    p1 ∉ ([p2, p3] : List TrackPoint) := by
  refine ⟨?_, ?_, ?_⟩
  · simp [flushStep, putTrackPoints, putTrackPointsGo, h11, h12]
  · simp [flushStep, putTrackPoints, putTrackPointsGo, h22, h23]
  · simp [hne2, hne3]

/-- Witness for C2 on three concrete points, a first network that accepts only
point 1 and a second network that accepts everything. -/
theorem flush_failure_recovery_witness :
    flushStep (fun q : TrackPoint => q.pointId == 1)
      [{ trackId := "t", pointId := 1, ts := 1, lat := 0, lng := 0,
         accuracy := none, nickname := "n" },
       { trackId := "t", pointId := 2, ts := 2, lat := 0, lng := 0,
         accuracy := none, nickname := "n" },
       { trackId := "t", pointId := 3, ts := 3, lat := 0, lng := 0,
         accuracy := none, nickname := "n" }] [] =
      ([{ trackId := "t", pointId := 2, ts := 2, lat := 0, lng := 0,
          accuracy := none, nickname := "n" },
        { trackId := "t", pointId := 3, ts := 3, lat := 0, lng := 0,
          accuracy := none, nickname := "n" }],
       [{ trackId := "t", pointId := 1, ts := 1, lat := 0, lng := 0,
          accuracy := none, nickname := "n" }]) ∧
    flushStep (fun _ : TrackPoint => true)
      [{ trackId := "t", pointId := 2, ts := 2, lat := 0, lng := 0,
         accuracy := none, nickname := "n" },
       { trackId := "t", pointId := 3, ts := 3, lat := 0, lng := 0,
         accuracy := none, nickname := "n" }] [] =
      ([],
       [{ trackId := "t", pointId := 2, ts := 2, lat := 0, lng := 0,
          accuracy := none, nickname := "n" },
        { trackId := "t", pointId := 3, ts := 3, lat := 0, lng := 0,
          accuracy := none, nickname := "n" }]) ∧
    ({ trackId := "t", pointId := 1, ts := 1, lat := 0, lng := 0,
       accuracy := none, nickname := "n" } : TrackPoint) ∉
      ([{ trackId := "t", pointId := 2, ts := 2, lat := 0, lng := 0,
          accuracy := none, nickname := "n" },
        { trackId := "t", pointId := 3, ts := 3, lat := 0, lng := 0,
          accuracy := none, nickname := "n" }] : List TrackPoint) :=
  flush_failure_recovery _ _ _ _ _ rfl rfl rfl rfl (by decide) (by decide)

/-- C4: Atomic buffer swap on flush — the whole pending buffer is swapped out
and submitted when the flush starts, so the buffer afterwards consists of the
unsent remainder of that batch followed by the points that arrived while the
flush was in flight; the delivered points are an initial segment of the
swapped batch, and when every call succeeds the buffer afterwards is exactly
the arrivals and the delivery is exactly the swapped batch. -/
theorem flush_atomic_swap (net : TrackPoint → Bool) (buffer arrivals : List TrackPoint) :
    ∃ delivered leftover,
      flushStep net buffer arrivals = (leftover ++ arrivals, delivered) ∧
      delivered ++ leftover = buffer ∧
      ((∀ p ∈ buffer, net p = true) → flushStep net buffer arrivals = (arrivals, buffer)) := by
  cases hput : putTrackPoints net buffer with
  | ok r =>
    obtain ⟨hr, -⟩ := putTrackPointsGo_ok net [] buffer r (by simpa [putTrackPoints] using hput)
    simp only [List.nil_append] at hr
    refine ⟨r, [], by simp [flushStep, hput], by simp [hr], fun _ => ?_⟩
    simp [flushStep, hput, hr]
  | error e =>
    obtain ⟨pre, x, post, hitems, hpre, hx, hcomp, hpend⟩ :=
      putTrackPointsGo_error net [] buffer e (by simpa [putTrackPoints] using hput)
    simp only [List.nil_append] at hcomp
    refine ⟨e.completed, e.pending, by simp [flushStep, hput], ?_, fun hall => ?_⟩
    · rw [hcomp, hpend, hitems]
    · exfalso
      have hmem : x ∈ buffer := by
        rw [hitems]
        simp
      rw [hall x hmem] at hx
      simp at hx

/-- Witness for C4 on a concrete buffer and arrival with an all-accepting
network. -/
theorem flush_atomic_swap_witness :
    ∃ delivered leftover,
      flushStep (fun _ : TrackPoint => true)
        [{ trackId := "t", pointId := 1, ts := 1, lat := 0, lng := 0,
           accuracy := none, nickname := "n" }]
        [{ trackId := "t", pointId := 2, ts := 2, lat := 0, lng := 0,
           accuracy := none, nickname := "n" }] =
        (leftover ++
          [{ trackId := "t", pointId := 2, ts := 2, lat := 0, lng := 0,
             accuracy := none, nickname := "n" }], delivered) ∧
      delivered ++ leftover =
        [{ trackId := "t", pointId := 1, ts := 1, lat := 0, lng := 0,
           accuracy := none, nickname := "n" }] ∧
      ((∀ p ∈ [{ trackId := "t", pointId := 1, ts := 1, lat := 0, lng := 0,
                 accuracy := none, nickname := "n" }],
          (fun _ : TrackPoint => true) p = true) →
        flushStep (fun _ : TrackPoint => true)
          [{ trackId := "t", pointId := 1, ts := 1, lat := 0, lng := 0,
             accuracy := none, nickname := "n" }]
          [{ trackId := "t", pointId := 2, ts := 2, lat := 0, lng := 0,
             accuracy := none, nickname := "n" }] =
          ([{ trackId := "t", pointId := 2, ts := 2, lat := 0, lng := 0,
              accuracy := none, nickname := "n" }],
           [{ trackId := "t", pointId := 1, ts := 1, lat := 0, lng := 0,
              accuracy := none, nickname := "n" }])) :=
  flush_atomic_swap (fun _ => true) _ _

/-- C3: Flush coalescing — a flush requested while one is already in flight
returns without issuing any network call and without touching any state, so
two overlapping flush attempts can never both drain the pending buffer: the
attempt that begins a flush leaves the guard set, and any attempt made before
it completes submits nothing. -/
theorem flush_coalescing :
    (∀ s : FlushGuardState, s.isFlushing = true → flushNowGuard s = (s, none)) ∧
    (∀ (s s2 : FlushGuardState) (pending : List TrackPoint),
        flushNowGuard s = (s2, some pending) → flushNowGuard s2 = (s2, none)) := by
  constructor
  · intro s h
    simp [flushNowGuard, h]
  · intro s s2 pending h
    unfold flushNowGuard at h
    split_ifs at h with h1 h2 h3
    · simp at h
    · simp at h
    · simp at h
    · obtain ⟨rfl, -⟩ : ({ s with isFlushing := true } : FlushGuardState) = s2 ∧
          some s.buffer = some pending := by
        simpa [Prod.ext_iff] using h
      simp [flushNowGuard]

/-- Witness for C3 at a concrete in-flight state. -/
theorem flush_coalescing_witness :
    flushNowGuard
      { sessionActive := true, online := true, isFlushing := true,
        buffer := [{ trackId := "t", pointId := 1, ts := 1, lat := 0, lng := 0,
                     accuracy := none, nickname := "n" }] } =
      ({ sessionActive := true, online := true, isFlushing := true,
         buffer := [{ trackId := "t", pointId := 1, ts := 1, lat := 0, lng := 0,
                      accuracy := none, nickname := "n" }] }, none) :=
  flush_coalescing.1 _ rfl

/-- With a finite requested count, the pagination loop returns exactly the
first `r` available points (all of them when fewer are available). -/
theorem listTrackPointsByTime_take_aux :
    ∀ (n : ℕ) (rest : List TrackPoint), rest.length ≤ n →
      ∀ r : ℕ, listTrackPointsByTime (some r) rest = rest.take r := by
  intro n
  induction n with
  | zero =>
    intro rest hlen r
    have hrest : rest = [] := List.length_eq_zero.mp (Nat.le_zero.mp hlen)
    subst hrest
    rcases r with _ | k
    · simp [listTrackPointsByTime]
    · simp [listTrackPointsByTime]
  | succ n ih =>
    intro rest hlen r
    rcases r with _ | k
    · simp [listTrackPointsByTime]
    · unfold listTrackPointsByTime
      rw [if_neg (by simp)]
      simp only [Option.map_some', Option.some.injEq, List.isEmpty_iff, List.length_take,
        inf_eq_min, MAX_PAGE_SIZE]
      set pl := min (max (k + 1) 1) 1000 with hpldef
      split_ifs with h1 h2 h3
      · have hpleq : pl = k + 1 := by omega
        rw [hpleq]
      · have hlen2 : rest.length ≤ pl := List.drop_eq_nil_iff.mp h2
        rw [List.take_of_length_le hlen2, List.take_of_length_le (by omega)]
      · exfalso
        rcases List.take_eq_nil_iff.mp h3 with hpl0 | hnil
        · omega
        · subst hnil
          simp at h2
      · have h5 : pl < rest.length := by
          by_contra hcon
          exact h2 (List.drop_eq_nil_iff.mpr (by omega))
        have hdrop : (rest.drop pl).length ≤ n := by
          rw [List.length_drop]
          omega
        rw [ih (rest.drop pl) hdrop]
        have hmin : min pl rest.length = pl := by omega
        rw [hmin]
        have htk : rest.take (k + 1) =
            rest.take pl ++ (rest.drop pl).take (k + 1 - pl) := by
          have h6 := List.take_add rest pl (k + 1 - pl)
          rwa [show pl + (k + 1 - pl) = k + 1 from by omega] at h6
        rw [htk]

/-- Without a finite requested count, the pagination loop returns every
available point. -/
theorem listTrackPointsByTime_none_aux :
    ∀ (n : ℕ) (rest : List TrackPoint), rest.length ≤ n →
      listTrackPointsByTime none rest = rest := by
  intro n
  induction n with
  | zero =>
    intro rest hlen
    have hrest : rest = [] := List.length_eq_zero.mp (Nat.le_zero.mp hlen)
    subst hrest
    simp [listTrackPointsByTime]
  | succ n ih =>
    intro rest hlen
    unfold listTrackPointsByTime
    rw [if_neg (by simp)]
    simp only [Option.map_none', List.isEmpty_iff, MAX_PAGE_SIZE]
    rw [if_neg (by simp)]
    split_ifs with h2 h3
    · have hlen2 : rest.length ≤ 1000 := List.drop_eq_nil_iff.mp h2
      exact List.take_of_length_le hlen2
    · exfalso
      rcases List.take_eq_nil_iff.mp h3 with hpl0 | hnil
      · omega
      · subst hnil
        simp at h2
    · have h5 : 1000 < rest.length := by
        by_contra hcon
        exact h2 (List.drop_eq_nil_iff.mpr (by omega))
      have hdrop : (rest.drop 1000).length ≤ n := by
        rw [List.length_drop]
        omega
      rw [ih (rest.drop 1000) hdrop]
      exact List.take_append_drop 1000 rest

/-- C7: History query completeness and ordering — the paginated time-range
loop keeps following continuation tokens until the requested count is
satisfied or no more pages exist, so with a finite count it returns exactly
the first `l` matching points (all of them when fewer exist) and with no
count it returns every matching point; loadHistory then returns a permutation
of the fetched points that is sorted ascending by timestamp. -/
theorem history_query_complete_sorted (avail : List TrackPoint) (l : ℕ) :
    listTrackPointsByTime (some l) avail = avail.take l ∧
    listTrackPointsByTime none avail = avail ∧
    (loadHistory (some l) avail).Perm (avail.take l) ∧
    List.Sorted (fun a b : TrackPoint => a.ts ≤ b.ts) (loadHistory (some l) avail) := by
  have h1 := listTrackPointsByTime_take_aux avail.length avail le_rfl l
  have h2 := listTrackPointsByTime_none_aux avail.length avail le_rfl
  refine ⟨h1, h2, ?_, ?_⟩
  · unfold loadHistory
    exact (List.mergeSort_perm _ _).trans (h1 ▸ List.Perm.refl _)
  · unfold loadHistory
    have hs := @List.sorted_mergeSort TrackPoint
      (fun a b : TrackPoint => decide (a.ts ≤ b.ts))
      (fun a b c hab hbc => by
        simp only [decide_eq_true_eq] at hab hbc ⊢
        omega)
      (fun a b => by
        simp only [Bool.or_eq_true, decide_eq_true_eq]
        omega)
      (listTrackPointsByTime (some l) avail)
    simpa using hs

/-- The start routine preserves the single-watch invariant. -/
theorem watchInv_start (s : WatchState) (h : WatchInv s) : WatchInv (start s).1 := by
  cases hs : s.session with
  | none => simpa [start, hs] using h
  | some sess =>
    cases hg : s.env.geoSupported with
    | false => simpa [start, hs, hg] using h
    | true =>
      cases hw : s.watchId with
      | some id => simpa [start, hs, hg, hw] using h
      | none =>
        have hstart : (start s).1 =
            { s with
                watchId := some s.env.nextWatchId
                isTracking := true
                env := { s.env with
                          watches := s.env.watches ++ [s.env.nextWatchId]
                          nextWatchId := s.env.nextWatchId + 1 } } := by
          simp [start, hs, hg, hw]
        rw [hstart]
        refine ⟨fun h1 => by simp at h1, fun id2 hid2 => ?_⟩
        obtain rfl : id2 = s.env.nextWatchId := (Option.some.inj hid2).symm
        simp [h.1 hw]

/-- The stopWatch routine preserves the single-watch invariant. -/
theorem watchInv_stopWatch (s : WatchState) (h : WatchInv s) : WatchInv (stopWatch s) := by
  cases hw : s.watchId with
  | none =>
    refine ⟨fun _ => ?_, fun id2 hid2 => ?_⟩
    · simp [stopWatch, hw, h.1 hw]
    · simp [stopWatch] at hid2
  | some id =>
    refine ⟨fun _ => ?_, fun id2 hid2 => ?_⟩
    · simp [stopWatch, hw, h.2 id hw]
    · simp [stopWatch] at hid2

/-- Running any sequence of start and stop operations preserves the
single-watch invariant. -/
theorem watchInv_runOps (ops : List RecorderOp) :
    ∀ s : WatchState, WatchInv s → WatchInv (runOps s ops) := by
  induction ops with
  | nil =>
    intro s h
    simpa [runOps] using h
  | cons op rest ih =>
    intro s h
    rw [runOps]
    apply ih
    cases op with
    | opStart => exact watchInv_start s h
    | opStop => exact watchInv_stopWatch s h

/-- C10: Implicit single-watch invariant — start with a watch already
registered leaves the whole state unchanged (and, when the guards pass,
returns silently), so from the initial state every sequence of start and stop
operations keeps at most one geolocation watch registered; start with no
session or without geolocation support reports the matching error and
registers nothing. -/
theorem single_watch_invariant :
    (∀ (s : WatchState) (id : ℕ), s.watchId = some id → (start s).1 = s) ∧
    (∀ (s : WatchState) (sess : Session) (id : ℕ),
        s.session = some sess → s.env.geoSupported = true → s.watchId = some id →
        start s = (s, none)) ∧
    (∀ s : WatchState, s.session = none → start s = (s, some .noSession)) ∧
    (∀ (s : WatchState) (sess : Session),
        s.session = some sess → s.env.geoSupported = false →
        start s = (s, some .unsupported)) ∧
    (∀ (session : Option Session) (supported : Bool) (ops : List RecorderOp),
        WatchInv (runOps (initialWatchState session supported) ops) ∧
        (runOps (initialWatchState session supported) ops).env.watches.length ≤ 1) := by
  have hinv0 : ∀ (session : Option Session) (supported : Bool),
      WatchInv (initialWatchState session supported) :=
    fun session supported => ⟨fun _ => rfl, fun id h => by simp [initialWatchState] at h⟩
  refine ⟨?_, ?_, ?_, ?_, ?_⟩
  · intro s id hw
    cases hs : s.session with
    | none => simp [start, hs]
    | some sess =>
      cases hg : s.env.geoSupported with
      | false => simp [start, hs, hg]
      | true => simp [start, hs, hg, hw]
  · intro s sess id hs hg hw
    simp [start, hs, hg, hw]
  · intro s hs
    simp [start, hs]
  · intro s sess hs hg
    simp [start, hs, hg]
  · intro session supported ops
    have hinv := watchInv_runOps ops (initialWatchState session supported)
      (hinv0 session supported)
    refine ⟨hinv, ?_⟩
    cases hw : (runOps (initialWatchState session supported) ops).watchId with
    | none => simp [hinv.1 hw]
    | some id => simp [hinv.2 id hw]

/-- Witness for C10: start on a concrete state with watch 5 already
registered changes nothing. -/
theorem single_watch_invariant_witness :
    (start
      { session := some { sessionId := "t", nickname := "n" }
        watchId := some 5
        isTracking := true
        env := { geoSupported := true, watches := [5], nextWatchId := 6 } }).1 =
      { session := some { sessionId := "t", nickname := "n" }
        watchId := some 5
        isTracking := true
        env := { geoSupported := true, watches := [5], nextWatchId := 6 } } :=
  single_watch_invariant.1 _ 5 rfl

end PostFlyer
